import Mathlib

/-!
Shallow embedding of the Seattle building-permit pipeline (`src/main.py`)
and proofs about its cleaning, aggregation and summary logic.

Conventions of the embedding:
* A pandas timestamp is a `Timestamp` (year, month, day); `NaT` is `none`.
* A float column value that may be `NaN` is an `Option ℚ`; `NaN` is `none`.
* `pd.to_datetime` with the default `errors='raise'` is `parseDate`
  (returns `Except`: a malformed string is an exception).
* `pd.to_numeric(..., errors='coerce')` is `parseCost` (returns `Option`:
  a malformed string becomes null).
* Aggregations (`resample('ME').size`, `groupby.agg`, `quantile(0.95)`,
  `mode`, `sum`/`mean`/`median` with pandas NaN-skipping) are embedded as
  the functions below, each following the pandas semantics of the call
  used in the source.
-/

namespace Permits

/-- A calendar date, standing for a pandas timestamp (day granularity,
which is all the pipeline compares). -/
structure Timestamp where
  year : Int
  month : Nat
  day : Nat
deriving DecidableEq, Repr

/-- Total order key for dates: lexicographic on (year, month, day);
faithful for month ≤ 12 and day ≤ 31. -/
def dateKey (t : Timestamp) : Int :=
  t.year * 10000 + t.month * 100 + t.day

/-- Gregorian leap-year test. -/
def isLeap (y : Int) : Bool :=
  (y % 4 == 0 && y % 100 != 0) || y % 400 == 0

/-- Embeds `now - pd.DateOffset(years=2)`: subtract two calendar years,
rolling Feb 29 back to Feb 28 when the target year is not a leap year. -/
def subYears2 (t : Timestamp) : Timestamp :=
  let y := t.year - 2
  if t.month == 2 && t.day == 29 && !isLeap y then ⟨y, 2, 28⟩
  else ⟨y, t.month, t.day⟩

/-- One raw CSV row, restricted to the columns the pipeline reads.
`Latitude` and `Longitude` arrive from `pd.read_csv` as floats that may be
`NaN`; `AppliedDate` and `EstProjectCost` are raw strings (`none` = missing
cell, i.e. already `NaN`/`NaT` after `read_csv`). -/
structure RawRow where
  appliedDate : Option String
  estProjectCost : Option String
  latitude : Option ℚ
  longitude : Option ℚ
  permitTypeMapped : String
  originalAddress1 : String
deriving DecidableEq, Repr

/-- A typed record: one row of the dataframe after the two column
conversions at the top of `load_and_clean_data`. -/
structure PermitRecord where
  appliedDate : Option Timestamp
  estProjectCost : Option ℚ
  latitude : Option ℚ
  longitude : Option ℚ
  permitTypeMapped : String
  originalAddress1 : String
deriving DecidableEq, Repr

/-- Value of a decimal digit character, `none` for a non-digit. -/
def digitVal (c : Char) : Option Nat :=
  if c.toNat ≥ 48 ∧ c.toNat ≤ 57 then some (c.toNat - 48) else none

/-- Accumulate the value of a digit string; `none` on the first
non-digit. -/
def digitsGo (acc : Nat) : List Char → Option Nat
  | [] => some acc
  | c :: t =>
    match digitVal c with
    | some d => digitsGo (10 * acc + d) t
    | none => none

/-- Value of a non-empty all-digit string, else `none`. -/
def digitsVal : List Char → Option Nat
  | [] => none
  | l => digitsGo 0 l

/-- Split a character list on a separator character (the pieces between
occurrences, like `str.split`). -/
def splitOnChar (sep : Char) : List Char → List (List Char)
  | [] => [[]]
  | c :: t =>
    if c = sep then [] :: splitOnChar sep t
    else
      match splitOnChar sep t with
      | [] => [[c]]
      | h :: r => (c :: h) :: r

/-- Embeds `pd.to_datetime` on one cell with the default `errors='raise'`:
a well-formed `YYYY-MM-DD` string parses, anything else raises
(`Except.error`). A missing cell is handled by the caller (`NaT`). -/
def parseDate (s : String) : Except String Timestamp :=
  match splitOnChar (Char.ofNat 45) s.toList with
  | [y, m, d] =>
    match digitsVal y, digitsVal m, digitsVal d with
    | some yn, some mn, some dn =>
      if 1 ≤ mn && mn ≤ 12 && 1 ≤ dn && dn ≤ 31 then
        .ok ⟨(yn : Int), mn, dn⟩
      else .error s
    | _, _, _ => .error s
  | _ => .error s

/-- Embeds `pd.to_numeric(..., errors='coerce')` on one cell: a decimal numeral
(`123` or `123.45`) parses, anything else coerces to null (`none`). -/
def parseCost (s : String) : Option ℚ :=
  match splitOnChar (Char.ofNat 46) s.toList with
  | [a] => (digitsVal a).map (fun n => (n : ℚ))
  | [a, b] =>
    match digitsVal a, digitsVal b with
    | some x, some y => some ((x : ℚ) + (y : ℚ) / (10 ^ b.length))
    | _, _ => none
  | _ => none

/-- The two column conversions of `load_and_clean_data` applied to one row:
`AppliedDate` via `pd.to_datetime` (raising on malformed strings),
`EstProjectCost` via `pd.to_numeric(errors='coerce')` (null on malformed),
all other columns copied verbatim. -/
def parseRow (r : RawRow) : Except String PermitRecord := do
  let d ← match r.appliedDate with
    | none => Except.ok (none : Option Timestamp)
    | some s => (parseDate s).map some
  Except.ok
    { appliedDate := d
      estProjectCost := r.estProjectCost.bind parseCost
      latitude := r.latitude
      longitude := r.longitude
      permitTypeMapped := r.permitTypeMapped
      originalAddress1 := r.originalAddress1 }

/-- The column conversions over the whole frame: the first malformed
`AppliedDate` raises and aborts, exactly as `pd.to_datetime` does on a
column. -/
def parseRows : List RawRow → Except String (List PermitRecord)
  | [] => .ok []
  | r :: t => do
    let p ← parseRow r
    let ps ← parseRows t
    Except.ok (p :: ps)

/-- Embeds the `df.dropna(subset=['Latitude', 'Longitude'])` row predicate. -/
def hasCoords (r : PermitRecord) : Bool :=
  r.latitude.isSome && r.longitude.isSome

/-- Embeds the `df['AppliedDate'] > two_years_ago` row predicate: `NaT` compares
false, otherwise strict chronological comparison against the cutoff. -/
def isRecent (now : Timestamp) (r : PermitRecord) : Bool :=
  match r.appliedDate with
  | none => false
  | some d => dateKey (subYears2 now) < dateKey d

/-- The cleaning stage of `load_and_clean_data`: drop rows with missing
coordinates (recording the drop count, as logged), then keep rows applied
strictly after `now - 2 years` (recording that drop count against the
remaining set). Returns (clean set, dropped step 1, dropped step 2). -/
def clean_records (parsed : List PermitRecord) (now : Timestamp) :
    List PermitRecord × Nat × Nat :=
  let afterCoords := parsed.filter hasCoords
  let dropped1 := parsed.length - afterCoords.length
  let cleaned := afterCoords.filter (isRecent now)
  (cleaned, dropped1, afterCoords.length - cleaned.length)

/-- Embeds `load_and_clean_data` on in-memory rows: column conversions (the date
conversion may raise), then the two filters. `now` is `datetime.now()`
passed explicitly. -/
def load_and_clean_data (rows : List RawRow) (now : Timestamp) :
    Except String (List PermitRecord × Nat × Nat) := do
  let parsed ← parseRows rows
  Except.ok (clean_records parsed now)

/-! ### Series helpers shared by the aggregations -/

/-- Distinct values of a column in first-encounter order (the grouping
order pandas `groupby`/`value_counts` iterate in). `seen` accumulates the
values already emitted. -/
def dedupFirstAux (seen : List String) : List String → List String
  | [] => []
  | x :: t =>
    if x ∈ seen then dedupFirstAux seen t
    else x :: dedupFirstAux (x :: seen) t

/-- Distinct values of a column in first-encounter order. -/
def dedupFirst (l : List String) : List String :=
  dedupFirstAux [] l

/-- pandas `Series.sum()` on a float column: NaN values are skipped, the
empty (or all-NaN) sum is `0`. -/
def seriesSum : List (Option ℚ) → ℚ
  | [] => 0
  | none :: t => seriesSum t
  | some x :: t => x + seriesSum t

/-- pandas `Series.mean()` on the non-null values of a column: NaN
(`none`) when there are no values. -/
def seriesMean (l : List ℚ) : Option ℚ :=
  if l.length = 0 then none else some (l.sum / l.length)

/-- Ascending sort of a rational column (pandas sorts; insertion sort is
the executable embedding of "sorted order"). -/
def sortRat (l : List ℚ) : List ℚ :=
  l.insertionSort (· ≤ ·)

/-- pandas `Series.median()` on the non-null values of a column: sort,
take the middle element (odd length) or the mean of the two middle
elements (even length); NaN (`none`) when there are no values. -/
def seriesMedian (l : List ℚ) : Option ℚ :=
  let s := sortRat l
  let n := s.length
  if n = 0 then none
  else if n % 2 = 1 then s[n / 2]?
  else match s[n / 2 - 1]?, s[n / 2]? with
    | some a, some b => some ((a + b) / 2)
    | _, _ => none

/-- Lexicographic comparison of character lists by code point (Python's
string order, which pandas uses to sort an object column). -/
def charListLe : List Char → List Char → Bool
  | [], _ => true
  | _ :: _, [] => false
  | a :: as, b :: bs => if a = b then charListLe as bs else decide (a < b)

/-- Lexicographic string comparison by code point. -/
def strLe (a b : String) : Bool :=
  charListLe a.toList b.toList

/-- pandas `Series.mode()`: the values attaining the maximal occurrence
count, returned sorted ascending (pandas documents the result as sorted;
lexicographic for an object column). Empty input gives the empty list. -/
def seriesMode (l : List String) : List String :=
  let ds := dedupFirst l
  match (ds.map (fun v => l.countP (· == v))).max? with
  | none => []
  | some m =>
    (ds.filter (fun v => l.countP (· == v) == m)).insertionSort
      (fun a b => strLe a b = true)

/-! ### Aggregator: monthly counts (`create_time_series`) -/

/-- Month bucket key of a date: months since year 0 (month granularity of
`resample('ME')`). -/
def monthIdx (t : Timestamp) : Int :=
  12 * t.year + (t.month : Int) - 1

/-- Month bucket of a record, `none` for `NaT` (rows `resample` assigns to
no bucket). -/
def recordMonth (r : PermitRecord) : Option Int :=
  r.appliedDate.map monthIdx

/-- The consecutive months from `a` to `b` inclusive. -/
def monthRange (a b : Int) : List Int :=
  (List.range (b - a + 1).toNat).map (fun i : Nat => a + (i : Int))

/-- Earliest month bucket occupied by a record. -/
def minMonth (df : List PermitRecord) : Option Int :=
  (df.filterMap recordMonth).min?

/-- Latest month bucket occupied by a record. -/
def maxMonth (df : List PermitRecord) : Option Int :=
  (df.filterMap recordMonth).max?

/-- Embeds `df.resample('ME', on='AppliedDate').size()`: one row for EVERY
calendar month from the earliest to the latest occupied month inclusive
(resample densifies the index), whose count is the number of records in
that month — zero when the month is unoccupied. Empty frame gives the
empty series. -/
def create_time_series (df : List PermitRecord) : List (Int × Nat) :=
  match minMonth df, maxMonth df with
  | some a, some b =>
    (monthRange a b).map (fun m => (m, df.countP (fun r => recordMonth r == some m)))
  | _, _ => []

/-! ### Aggregator: permit-type distribution and cost statistics
(`create_permit_type_analysis`) -/

/-- One row of `groupby('PermitTypeMapped')['EstProjectCost'].agg(['mean',
'median', 'count'])`. -/
structure CatStats where
  category : String
  mean : Option ℚ
  median : Option ℚ
  count : Nat
deriving DecidableEq, Repr

/-- The `EstProjectCost` column of one `PermitTypeMapped` group. -/
def groupCosts (df : List PermitRecord) (c : String) : List (Option ℚ) :=
  (df.filter (fun r => r.permitTypeMapped == c)).map (·.estProjectCost)

/-- Sort order of `sort_values('mean', ascending=False)`: larger mean
first, NaN means last. -/
def meanDescLe (a b : CatStats) : Bool :=
  match a.mean, b.mean with
  | none, none => true
  | none, some _ => false
  | some _, none => true
  | some x, some y => y ≤ x

/-- Descending-count order of `value_counts()`. -/
def countDescLe (a b : String × Nat) : Bool := b.2 ≤ a.2

/-- Embeds `df['PermitTypeMapped'].value_counts()`: occurrence count per distinct
value, sorted by count descending (stable, so ties keep first-encounter
order). -/
def value_counts (l : List String) : List (String × Nat) :=
  ((dedupFirst l).map (fun v => (v, l.countP (· == v)))).insertionSort
    (fun a b => countDescLe a b = true)

/-- The unsorted `groupby('PermitTypeMapped')['EstProjectCost'].agg(['mean',
'median', 'count'])` rows, one per distinct category: pandas `agg` computes
`mean` and `median` over the non-null costs of the group and `count` as the
number of NON-null costs in the group (pandas `count` excludes NaN). -/
def cost_by_type_rows (df : List PermitRecord) : List CatStats :=
  (dedupFirst (df.map (·.permitTypeMapped))).map (fun c =>
    let nn := (groupCosts df c).filterMap id
    ⟨c, seriesMean nn, seriesMedian nn, nn.length⟩)

/-- Embeds `create_permit_type_analysis`: the permit-type distribution
(`value_counts`) and the per-type cost statistics sorted by mean
descending (`sort_values('mean', ascending=False)`). -/
def create_permit_type_analysis (df : List PermitRecord) :
    List (String × Nat) × List CatStats :=
  (value_counts (df.map (·.permitTypeMapped)),
   (cost_by_type_rows df).insertionSort (fun a b => meanDescLe a b = true))

/-! ### Aggregator: outlier selection (`create_map`) -/

/-- Embeds `Series.quantile(0.95)` with the default linear interpolation: over
the sorted non-null values `v_0 ≤ … ≤ v_(n-1)`, the point `h = 0.95*(n-1)`
interpolated between `v_⌊h⌋` and `v_(⌊h⌋+1)`; NaN (`none`) when there are
no values. `⌊0.95*(n-1)⌋ = 19*(n-1) / 20` and the fractional part is
`(19*(n-1) % 20) / 20`, computed exactly on naturals. -/
def quantile95 (l : List ℚ) : Option ℚ :=
  let s := sortRat l
  match s with
  | [] => none
  | _ =>
    let i : Nat := 19 * (s.length - 1) / 20
    let frac : ℚ := (19 * (s.length - 1) % 20 : Nat) / 20
    match s[i]?, s[i + 1]? with
    | some lo, some hi => some (lo + frac * (hi - lo))
    | some lo, none => some lo
    | _, _ => none

/-- The non-null `EstProjectCost` values of the frame. -/
def nonNullCosts (df : List PermitRecord) : List ℚ :=
  df.filterMap (·.estProjectCost)

/-- Embeds `df[df['EstProjectCost'] > df['EstProjectCost'].quantile(0.95)]`:
rows whose cost strictly exceeds the 95th percentile; a NaN cost (and a
NaN quantile, when every cost is null) compares false and is never
selected. -/
def create_map_outliers (df : List PermitRecord) : List PermitRecord :=
  df.filter (fun r =>
    match r.estProjectCost, quantile95 (nonNullCosts df) with
    | some c, some q => q < c
    | _, _ => false)

/-! ### SummaryComputer (`generate_summary_stats`) -/

/-- The `stats` dictionary of `generate_summary_stats` (the date range is
kept as the pair of `dateKey`s that `strftime` would format). -/
structure SummaryStats where
  total_permits : Nat
  total_value : ℚ
  avg_value : Option ℚ
  median_value : Option ℚ
  most_common_type : String
  date_range : Int × Int
deriving DecidableEq, Repr

/-- Embeds `df['AppliedDate'].min()` as its `dateKey`; `none` is `NaT`
(empty or all-`NaT` column). -/
def dateMinKey (df : List PermitRecord) : Option Int :=
  ((df.filterMap (·.appliedDate)).map dateKey).min?

/-- Embeds `df['AppliedDate'].max()` as its `dateKey`; `none` is `NaT`. -/
def dateMaxKey (df : List PermitRecord) : Option Int :=
  ((df.filterMap (·.appliedDate)).map dateKey).max?

/-- Embeds `generate_summary_stats`: `len(df)`, NaN-skipping sum/mean/median of
the cost column, `mode().iloc[0]` (an IndexError on an empty frame, since
the mode of an empty series is empty), and min/max applied date
(`NaT.strftime` raises when the column has no dates). -/
def generate_summary_stats (df : List PermitRecord) :
    Except String SummaryStats :=
  let costs := df.map (·.estProjectCost)
  match seriesMode (df.map (·.permitTypeMapped)) with
  | [] => .error "IndexError: mode of an empty series has no element 0"
  | t :: _ =>
    match dateMinKey df, dateMaxKey df with
    | some dmin, some dmax =>
      .ok ⟨df.length, seriesSum costs, seriesMean (costs.filterMap id),
           seriesMedian (costs.filterMap id), t, (dmin, dmax)⟩
    | _, _ => .error "ValueError: NaT does not support strftime"

/-! ### The four derivations as state-passing steps (each returns its
view together with the frame it leaves behind; none of the source
functions assigns into `df`, so each hands the frame on unchanged). -/

/-- Runs `create_time_series` as a step on the shared frame. -/
def step_time_series (df : List PermitRecord) :
    List (Int × Nat) × List PermitRecord :=
  (create_time_series df, df)

/-- Runs `create_permit_type_analysis` as a step on the shared frame. -/
def step_permit_type (df : List PermitRecord) :
    (List (String × Nat) × List CatStats) × List PermitRecord :=
  (create_permit_type_analysis df, df)

/-- Runs `create_map` as a step on the shared frame. -/
def step_map (df : List PermitRecord) :
    List PermitRecord × List PermitRecord :=
  (create_map_outliers df, df)

/-- Runs `generate_summary_stats` as a step on the shared frame. -/
def step_summary (df : List PermitRecord) :
    Except String SummaryStats × List PermitRecord :=
  (generate_summary_stats df, df)

/-! ## Concrete fixtures used by witnesses and counterexamples -/

/-- A clean record applied January 2024, null cost, category `b`. -/
def recJanB : PermitRecord :=
  ⟨some ⟨2024, 1, 15⟩, none, some 1, some 1, "b", "400 Pine St"⟩

/-- A clean record applied March 2024, null cost, category `a`. -/
def recMarA : PermitRecord :=
  ⟨some ⟨2024, 3, 10⟩, none, some 1, some 1, "a", "500 Pike St"⟩

/-- A raw row whose `AppliedDate` string does not parse. -/
def rowBadDate : RawRow :=
  ⟨some "not-a-date", some "5", some 1, some 1, "t", "1 Main St"⟩

/-- A raw row with a missing `AppliedDate` cell. -/
def rowNoDate : RawRow :=
  ⟨none, some "5", some 1, some 1, "t", "2 Main St"⟩

/-- A fixed run time for the witnesses. -/
def now0 : Timestamp := ⟨2025, 1, 1⟩

/-- Two records of category `x`, both with null cost. -/
def dfNullX : List PermitRecord :=
  [⟨some ⟨2024, 5, 1⟩, none, some 1, some 1, "x", "c1"⟩,
   ⟨some ⟨2024, 5, 2⟩, none, some 1, some 1, "x", "c2"⟩]

/-- Two records of category `x`, one with cost 100 and one with null
cost. -/
def dfMixed : List PermitRecord :=
  [⟨some ⟨2024, 5, 1⟩, some 100, some 1, some 1, "x", "c1"⟩,
   ⟨some ⟨2024, 5, 2⟩, none, some 1, some 1, "x", "c2"⟩]

/-- Four clean records with costs 100, 200, 300 and 10000 (category `t`). -/
def dfCosts : List PermitRecord :=
  [⟨some ⟨2024, 4, 1⟩, some 100, some 1, some 1, "t", "a1"⟩,
   ⟨some ⟨2024, 4, 2⟩, some 200, some 1, some 1, "t", "a2"⟩,
   ⟨some ⟨2024, 4, 3⟩, some 300, some 1, some 1, "t", "a3"⟩,
   ⟨some ⟨2024, 4, 4⟩, some 10000, some 1, some 1, "t", "a4"⟩]

end Permits

namespace Permits

/-! ## Helper lemmas -/

/-- Shows `parseRows` fails as soon as one row's `parseRow` fails. -/
theorem parseRows_error_of_mem {rows : List RawRow} {r : RawRow} {e : String}
    (hr : r ∈ rows) (he : parseRow r = .error e) :
    ∃ e', parseRows rows = .error e' := by
  induction rows with
  | nil => cases hr
  | cons a t ih =>
    rcases List.mem_cons.mp hr with h | h
    · subst h
      exact ⟨e, by simp [parseRows, he, Bind.bind, Except.bind]⟩
    · cases ha : parseRow a with
      | error e2 => exact ⟨e2, by simp [parseRows, ha, Bind.bind, Except.bind]⟩
      | ok p =>
        obtain ⟨e', ht⟩ := ih h
        exact ⟨e', by simp [parseRows, ha, ht, Bind.bind, Except.bind]⟩

/-- A malformed `AppliedDate` string makes `parseRow` fail. -/
theorem parseRow_error {r : RawRow} {s e : String}
    (hs : r.appliedDate = some s) (he : parseDate s = .error e) :
    parseRow r = .error e := by
  simp [parseRow, hs, he, Bind.bind, Except.bind, Except.map]

/-- A row with a missing `AppliedDate` cell parses, with a null date. -/
theorem parseRow_none {r : RawRow} (h : r.appliedDate = none) :
    parseRow r = .ok
      ⟨none, r.estProjectCost.bind parseCost, r.latitude, r.longitude,
       r.permitTypeMapped, r.originalAddress1⟩ := by
  simp [parseRow, h, Bind.bind, Except.bind]

/-- Unfolding of the coordinate filter predicate. -/
theorem hasCoords_eq_true_iff {r : PermitRecord} :
    hasCoords r = true ↔
      r.latitude.isSome = true ∧ r.longitude.isSome = true := by
  simp [hasCoords]

/-- Unfolding of the recency filter predicate. -/
theorem isRecent_eq_true_iff {now : Timestamp} {r : PermitRecord} :
    isRecent now r = true ↔
      ∃ d, r.appliedDate = some d ∧
        dateKey (subYears2 now) < dateKey d := by
  cases hd : r.appliedDate <;> simp [isRecent, hd]

/-! ## Claim theorems -/

/-- Claim **C5** (confirmed). For every input record set and current time, the
cleaner's output is exactly the records with non-null coordinates and a
non-null applied date strictly after `now - 2 years`, and the two logged
drop counts (coordinates first, then recency against the remaining set)
sum to `|input| - |output|`. -/
theorem C5_cleaner_exact (parsed : List PermitRecord) (now : Timestamp) :
    (clean_records parsed now).1 =
      parsed.filter (fun r => hasCoords r && isRecent now r) ∧
    (clean_records parsed now).2.1 + (clean_records parsed now).2.2 =
      parsed.length - (clean_records parsed now).1.length ∧
    ∀ r, r ∈ (clean_records parsed now).1 ↔
      r ∈ parsed ∧ r.latitude.isSome = true ∧ r.longitude.isSome = true ∧
        ∃ d, r.appliedDate = some d ∧
          dateKey (subYears2 now) < dateKey d := by
  refine ⟨?_, ?_, ?_⟩
  · simp only [clean_records, List.filter_filter]
    exact List.filter_congr fun r _ => by rw [Bool.and_comm]
  · have h1 := List.length_filter_le hasCoords parsed
    have h2 := List.length_filter_le (isRecent now)
      (parsed.filter hasCoords)
    simp only [clean_records]
    omega
  · intro r
    simp only [clean_records, List.mem_filter, Bool.and_eq_true,
      hasCoords_eq_true_iff, isRecent_eq_true_iff]
    tauto

/-- Claim **C3** (corrected): at a concrete input with a malformed
`AppliedDate` string the whole load raises (`pd.to_datetime` defaults to
`errors='raise'`), instead of nulling the field and keeping the row as
the claim states. -/
theorem C3_counterexample :
    load_and_clean_data [rowBadDate] now0 = .error "not-a-date" := by rfl

/-- Claim **C3** (amended). A row whose `AppliedDate` string fails to parse is
fatal: the whole load aborts with the parse error (no row survives with a
null date from a malformed string); only a missing `AppliedDate` cell
becomes a null field with the row retained at the parse stage. -/
theorem C3_malformed_date_fatal :
    (∀ (rows : List RawRow) (now : Timestamp) (r : RawRow) (s e : String),
      r ∈ rows → r.appliedDate = some s → parseDate s = .error e →
        ∃ e', load_and_clean_data rows now = .error e') ∧
    (∀ r : RawRow, r.appliedDate = none →
      parseRow r = .ok
        ⟨none, r.estProjectCost.bind parseCost, r.latitude, r.longitude,
         r.permitTypeMapped, r.originalAddress1⟩) := by
  constructor
  · intro rows now r s e hr hs he
    obtain ⟨e', h⟩ := parseRows_error_of_mem hr (parseRow_error hs he)
    exact ⟨e', by simp [load_and_clean_data, h, Bind.bind, Except.bind]⟩
  · exact fun r h => parseRow_none h

/-- Claim **C3** witness: the amended theorem applied to the two concrete rows. -/
theorem C3_witness :
    (∃ e', load_and_clean_data [rowNoDate, rowBadDate] now0 = .error e') ∧
    parseRow rowNoDate = .ok
      ⟨none, rowNoDate.estProjectCost.bind parseCost, rowNoDate.latitude,
       rowNoDate.longitude, rowNoDate.permitTypeMapped,
       rowNoDate.originalAddress1⟩ :=
  ⟨C3_malformed_date_fatal.1 [rowNoDate, rowBadDate] now0 rowBadDate
      "not-a-date" "not-a-date" (by decide) rfl rfl,
   C3_malformed_date_fatal.2 rowNoDate rfl⟩

/-- The row predicate of the outlier selection, unfolded. -/
theorem outlierPred_iff {df : List PermitRecord} {r : PermitRecord} :
    (match r.estProjectCost, quantile95 (nonNullCosts df) with
      | some c, some q => decide (q < c)
      | _, _ => false) = true ↔
    ∃ c q, r.estProjectCost = some c ∧
      quantile95 (nonNullCosts df) = some q ∧ q < c := by
  cases hc : r.estProjectCost <;>
    cases hq : quantile95 (nonNullCosts df) <;> simp [hc, hq]

/-- Claim **C4** (confirmed). A record is an outlier of `create_map` iff it is
in the clean set, its cost is non-null and its cost strictly exceeds the
interpolated 95th percentile of the non-null costs; hence the outlier set
is a subset of the clean set, null-cost records are never outliers, and
no non-outlier's cost exceeds the threshold. -/
theorem C4_outliers_iff (df : List PermitRecord) :
    (∀ r, r ∈ create_map_outliers df ↔
      r ∈ df ∧ ∃ c q, r.estProjectCost = some c ∧
        quantile95 (nonNullCosts df) = some q ∧ q < c) ∧
    (∀ r, r ∈ create_map_outliers df → r ∈ df) ∧
    (∀ r, r ∈ create_map_outliers df → r.estProjectCost ≠ none) ∧
    (∀ r, r ∈ df → r ∉ create_map_outliers df →
      ∀ c q, r.estProjectCost = some c →
        quantile95 (nonNullCosts df) = some q → c ≤ q) := by
  have hiff : ∀ r, r ∈ create_map_outliers df ↔
      r ∈ df ∧ ∃ c q, r.estProjectCost = some c ∧
        quantile95 (nonNullCosts df) = some q ∧ q < c := by
    intro r
    rw [create_map_outliers, List.mem_filter]
    exact and_congr_right fun _ => outlierPred_iff
  refine ⟨hiff, fun r hr => ((hiff r).mp hr).1, ?_, ?_⟩
  · intro r hr
    obtain ⟨_, c, q, hc, _, _⟩ := (hiff r).mp hr
    simp [hc]
  · intro r hmem hnot c q hc hq
    by_contra hgt
    exact hnot ((hiff r).mpr ⟨hmem, c, q, hc, hq, lt_of_not_le hgt⟩)

/-- Claim **C4** witness: on costs 100, 200, 300, 10000 the 95th percentile is
`300 + 0.85 * (10000 - 300) = 8545` and the 10000-cost record is selected. -/
theorem C4_witness :
    (⟨some ⟨2024, 4, 4⟩, some 10000, some 1, some 1, "t", "a4"⟩ :
        PermitRecord) ∈ create_map_outliers dfCosts :=
  ((C4_outliers_iff dfCosts).1 _).mpr
    ⟨by decide, 10000, 8545, rfl,
     by norm_num [quantile95, nonNullCosts, dfCosts, sortRat,
       List.insertionSort, List.orderedInsert],
     by norm_num⟩

/-- Claim **C9** (confirmed). The four derivations are read-only on the clean
set: each state-passing step hands the frame on unchanged, and chaining
them in one order or the reverse produces the same four views as applying
each to the original frame. -/
theorem C9_derivations_pure (df : List PermitRecord) :
    ((step_time_series df).2 = df ∧ (step_permit_type df).2 = df ∧
     (step_map df).2 = df ∧ (step_summary df).2 = df) ∧
    ((step_time_series
        ((step_permit_type ((step_map ((step_summary df).2)).2)).2)).1
          = create_time_series df ∧
     (step_permit_type ((step_map ((step_summary df).2)).2)).1
          = create_permit_type_analysis df ∧
     (step_map ((step_summary df).2)).1 = create_map_outliers df ∧
     (step_summary
        ((step_map ((step_permit_type ((step_time_series df).2)).2)).2)).1
          = generate_summary_stats df) :=
  ⟨⟨rfl, rfl, rfl, rfl⟩, rfl, rfl, rfl, rfl⟩

/-- pandas' NaN-skipping column sum is the sum of the non-null values. -/
theorem seriesSum_eq_filterMap_sum (l : List (Option ℚ)) :
    seriesSum l = (l.filterMap id).sum := by
  induction l with
  | nil => rfl
  | cons h t ih => cases h <;> simp [seriesSum, ih]

/-- An all-null cost column sums to zero. -/
theorem seriesSum_zero_of_all_none {l : List (Option ℚ)}
    (h : ∀ x ∈ l, x = none) : seriesSum l = 0 := by
  induction l with
  | nil => rfl
  | cons x t ih =>
    rw [h x (List.mem_cons_self x t)]
    exact ih fun y hy => h y (List.mem_cons_of_mem x hy)

/-- An all-null column has no non-null values. -/
theorem filterMap_id_nil_of_all_none {l : List (Option ℚ)}
    (h : ∀ x ∈ l, x = none) : l.filterMap id = [] := by
  induction l with
  | nil => rfl
  | cons x t ih =>
    rw [List.filterMap_cons, h x (List.mem_cons_self x t)]
    exact ih fun y hy => h y (List.mem_cons_of_mem x hy)

/-- Claim **C10** (confirmed). `totalValue` is the sum of the non-null costs;
an all-null (or empty) cost column sums to `0` — the sum is a plain
number, never a null/error signal. -/
theorem C10_total_value_sum :
    (∀ l : List (Option ℚ), seriesSum l = (l.filterMap id).sum) ∧
    (∀ l : List (Option ℚ), (∀ x ∈ l, x = none) → seriesSum l = 0) ∧
    (∀ df s, generate_summary_stats df = .ok s →
      s.total_value = seriesSum (df.map (·.estProjectCost))) := by
  refine ⟨seriesSum_eq_filterMap_sum, fun l h => seriesSum_zero_of_all_none h, ?_⟩
  · intro df s h
    rw [generate_summary_stats] at h
    rcases hm : seriesMode (df.map (·.permitTypeMapped)) with _ | ⟨t, ts⟩ <;>
      rw [hm] at h
    · cases h
    · rcases hmin : dateMinKey df with _ | dmin <;> rw [hmin] at h
      · cases h
      · rcases hmax : dateMaxKey df with _ | dmax <;> rw [hmax] at h
        · cases h
        · cases h
          rfl

/-- The left fold of `min` over a list bounds every element, the seed
included. -/
theorem foldl_min_le {α : Type} [LinearOrder α] (l : List α) (a : α) :
    ∀ m ∈ a :: l, l.foldl min a ≤ m := by
  induction l generalizing a with
  | nil =>
    intro m hm
    rcases List.mem_cons.mp hm with rfl | h
    · exact le_refl m
    · cases h
  | cons b t ih =>
    intro m hm
    have hseed := ih (min a b) (min a b) (List.mem_cons_self _ _)
    rcases List.mem_cons.mp hm with rfl | h
    · exact le_trans hseed (min_le_left _ _)
    · rcases List.mem_cons.mp h with rfl | h2
      · exact le_trans hseed (min_le_right _ _)
      · exact ih (min a b) m (List.mem_cons_of_mem _ h2)

/-- The left fold of `max` over a list dominates every element. -/
theorem le_foldl_max {α : Type} [LinearOrder α] (l : List α) (a : α) :
    ∀ m ∈ a :: l, m ≤ l.foldl max a := by
  induction l generalizing a with
  | nil =>
    intro m hm
    rcases List.mem_cons.mp hm with rfl | h
    · exact le_refl m
    · cases h
  | cons b t ih =>
    intro m hm
    have hseed := ih (max a b) (max a b) (List.mem_cons_self _ _)
    rcases List.mem_cons.mp hm with rfl | h
    · exact le_trans (le_max_left _ _) hseed
    · rcases List.mem_cons.mp h with rfl | h2
      · exact le_trans (le_max_right _ _) hseed
      · exact ih (max a b) m (List.mem_cons_of_mem _ h2)

/-- The `min?` of a list bounds every member. -/
theorem min?_le_of_mem {α : Type} [LinearOrder α] {l : List α} {a m : α}
    (h : l.min? = some a) (hm : m ∈ l) : a ≤ m := by
  cases l with
  | nil => cases hm
  | cons x xs =>
    simp only [List.min?_cons', Option.some.injEq] at h
    subst h
    exact foldl_min_le xs x m hm

/-- The `max?` of a list dominates every member. -/
theorem le_max?_of_mem {α : Type} [LinearOrder α] {l : List α} {b m : α}
    (h : l.max? = some b) (hm : m ∈ l) : m ≤ b := by
  cases l with
  | nil => cases hm
  | cons x xs =>
    simp only [List.max?_cons', Option.some.injEq] at h
    subst h
    exact le_foldl_max xs x m hm

/-- Membership in the densified month range. -/
theorem mem_monthRange {a b m : Int} :
    m ∈ monthRange a b ↔ a ≤ m ∧ m ≤ b := by
  unfold monthRange
  rw [List.mem_map]
  constructor
  · rintro ⟨i, hi, rfl⟩
    rw [List.mem_range] at hi
    omega
  · rintro ⟨h1, h2⟩
    refine ⟨(m - a).toNat, ?_, ?_⟩
    · rw [List.mem_range]
      omega
    · omega

/-- The densified month range has no duplicates. -/
theorem nodup_monthRange (a b : Int) : (monthRange a b).Nodup := by
  unfold monthRange
  refine List.Nodup.map ?_ (List.nodup_range _)
  intro i j h
  have h' : a + (i : Int) = a + (j : Int) := h
  omega

/-- Over a duplicate-free list containing `v`, the indicator of `v` sums
to one. -/
theorem sum_indicator_nodup {ms : List Int} (hnd : ms.Nodup) {v : Int}
    (hv : v ∈ ms) :
    (ms.map (fun m => if v = m then (1 : Nat) else 0)).sum = 1 := by
  induction ms with
  | nil => cases hv
  | cons a t ih =>
    rcases List.mem_cons.mp hv with rfl | hvt
    · simp only [List.map_cons, List.sum_cons, if_pos rfl]
      have hz : (t.map (fun m => if v = m then (1 : Nat) else 0)).sum = 0 := by
        apply List.sum_eq_zero
        intro x hx
        obtain ⟨m, hm, rfl⟩ := List.mem_map.mp hx
        rw [if_neg]
        rintro rfl
        exact (List.nodup_cons.mp hnd).1 hm
      simp [hz]
    · have hne : v ≠ a := by
        rintro rfl
        exact (List.nodup_cons.mp hnd).1 hvt
      simp only [List.map_cons, List.sum_cons, if_neg hne]
      rw [ih (List.nodup_cons.mp hnd).2 hvt]

/-- Partition counting: when every record's month lies in a
duplicate-free list of buckets, the per-bucket counts sum to the record
count. -/
theorem sum_countP_eq_length {ms : List Int} (hnd : ms.Nodup)
    (l : List PermitRecord)
    (h : ∀ r ∈ l, ∃ m, recordMonth r = some m ∧ m ∈ ms) :
    (ms.map (fun m => l.countP (fun r => recordMonth r == some m))).sum
      = l.length := by
  induction l with
  | nil => simp
  | cons r t ih =>
    obtain ⟨m0, hm0, hmem⟩ := h r (List.mem_cons_self _ _)
    have hsplit :
        (ms.map (fun m => (r :: t).countP
            (fun r' => recordMonth r' == some m))).sum
          = (ms.map (fun m => t.countP
              (fun r' => recordMonth r' == some m))).sum
            + (ms.map (fun m =>
                if m0 = m then (1 : Nat) else 0)).sum := by
      rw [← List.sum_map_add]
      apply congrArg
      apply List.map_congr_left
      intro m _
      rw [List.countP_cons]
      have : (recordMonth r == some m) = decide (m0 = m) := by
        rw [hm0]
        cases em (m0 = m) with
        | inl he => simp [he]
        | inr he => simp [he]
      rw [this]
      cases em (m0 = m) with
      | inl he => simp [he]
      | inr he => simp [he]
    rw [hsplit, ih fun r' hr' => h r' (List.mem_cons_of_mem _ hr'),
        sum_indicator_nodup hnd hmem, List.length_cons]

/-- Case analysis of a successful `generate_summary_stats`: each summary
field in terms of the series helpers. -/
theorem summary_ok_fields {df : List PermitRecord} {s : SummaryStats}
    (h : generate_summary_stats df = .ok s) :
    s.total_permits = df.length ∧
    s.total_value = seriesSum (df.map (·.estProjectCost)) ∧
    s.avg_value = seriesMean ((df.map (·.estProjectCost)).filterMap id) ∧
    s.median_value =
      seriesMedian ((df.map (·.estProjectCost)).filterMap id) ∧
    ∃ ts, seriesMode (df.map (·.permitTypeMapped))
      = s.most_common_type :: ts := by
  rw [generate_summary_stats] at h
  rcases hm : seriesMode (df.map (·.permitTypeMapped)) with _ | ⟨t, ts⟩ <;>
    rw [hm] at h
  · cases h
  · rcases hmin : dateMinKey df with _ | dmin <;> rw [hmin] at h
    · cases h
    · rcases hmax : dateMaxKey df with _ | dmax <;> rw [hmax] at h
      · cases h
      · cases h
        exact ⟨rfl, rfl, rfl, rfl, ts, hm⟩

/-- Claim **C1** (corrected): at a concrete input occupying January and March
2024 only, the time series contains a bucket for February 2024 (month
index 24289) with count zero, although no record falls in that month —
`resample` densifies, it does not omit empty months. -/
theorem C1_counterexample :
    ((24289 : Int), (0 : Nat)) ∈ create_time_series [recJanB, recMarA] ∧
    [recJanB, recMarA].countP
      (fun r => recordMonth r == some 24289) = 0 := by
  decide

/-- Claim **C1** (amended). For a clean set whose occupied months span `a..b`,
the monthly-counts aggregate contains the entry `(m, c)` exactly when
`a ≤ m ≤ b` and `c` is the number of records in month `m` — every
calendar month between the earliest and latest occupied month appears,
including months with zero records. -/
theorem C1_monthly_counts_densified (df : List PermitRecord) (a b : Int)
    (ha : minMonth df = some a) (hb : maxMonth df = some b) :
    ∀ m c, ((m, c) ∈ create_time_series df ↔
      a ≤ m ∧ m ≤ b ∧
        c = df.countP (fun r => recordMonth r == some m)) := by
  intro m c
  rw [create_time_series, ha, hb]
  rw [List.mem_map]
  constructor
  · rintro ⟨m', hm', heq⟩
    cases heq
    exact ⟨(mem_monthRange.mp hm').1, (mem_monthRange.mp hm').2, rfl⟩
  · rintro ⟨h1, h2, rfl⟩
    exact ⟨m, mem_monthRange.mpr ⟨h1, h2⟩, rfl⟩

/-- Claim **C1** witness: the amended theorem at the January/March frame — the
occupied-month bound is 24288..24290 and the March bucket holds one
record. -/
theorem C1_witness :
    minMonth [recJanB, recMarA] = some 24288 ∧
    maxMonth [recJanB, recMarA] = some 24290 ∧
    ((24290 : Int), (1 : Nat)) ∈ create_time_series [recJanB, recMarA] :=
  ⟨by decide, by decide,
   (C1_monthly_counts_densified [recJanB, recMarA] 24288 24290
       (by decide) (by decide) 24290 1).mpr
     ⟨by decide, by decide, by decide⟩⟩

/-- Claim **C7** (confirmed). When every record of the clean set has a non-null
applied date (the cleaner guarantees it), the monthly counts sum to the
size of the clean set, which is `totalPermits`. -/
theorem C7_monthly_sum (df : List PermitRecord)
    (h : ∀ r ∈ df, r.appliedDate.isSome = true) :
    ((create_time_series df).map Prod.snd).sum = df.length ∧
    ∀ s, generate_summary_stats df = .ok s →
      ((create_time_series df).map Prod.snd).sum = s.total_permits := by
  have hmain : ((create_time_series df).map Prod.snd).sum = df.length := by
    cases hdf : df with
    | nil => rfl
    | cons r0 rest =>
      rw [← hdf]
      have hr0 : r0 ∈ df := hdf ▸ List.mem_cons_self _ _
      obtain ⟨d0, hd0⟩ := Option.isSome_iff_exists.mp (h r0 hr0)
      have hm0 : monthIdx d0 ∈ df.filterMap recordMonth :=
        List.mem_filterMap.mpr ⟨r0, hr0, by simp [recordMonth, hd0]⟩
      obtain ⟨a, ha⟩ : ∃ a, minMonth df = some a := by
        rw [minMonth]
        cases hml : df.filterMap recordMonth with
        | nil => rw [hml] at hm0; cases hm0
        | cons x xs => exact ⟨xs.foldl min x, List.min?_cons'⟩
      obtain ⟨b, hb⟩ : ∃ b, maxMonth df = some b := by
        rw [maxMonth]
        cases hml : df.filterMap recordMonth with
        | nil => rw [hml] at hm0; cases hm0
        | cons x xs => exact ⟨xs.foldl max x, List.max?_cons'⟩
      rw [create_time_series, ha, hb, List.map_map]
      have hcomp : (Prod.snd ∘ fun m =>
          (m, df.countP (fun r => recordMonth r == some m)))
            = fun m => df.countP (fun r => recordMonth r == some m) := rfl
      rw [hcomp]
      apply sum_countP_eq_length (nodup_monthRange a b)
      intro r hr
      obtain ⟨d, hd⟩ := Option.isSome_iff_exists.mp (h r hr)
      have hmem : monthIdx d ∈ df.filterMap recordMonth :=
        List.mem_filterMap.mpr ⟨r, hr, by simp [recordMonth, hd]⟩
      exact ⟨monthIdx d, by simp [recordMonth, hd],
        mem_monthRange.mpr
          ⟨min?_le_of_mem ha hmem, le_max?_of_mem hb hmem⟩⟩
  exact ⟨hmain, fun s hs => by rw [hmain, (summary_ok_fields hs).1]⟩

/-- Claim **C7** witness: the theorem at the January/March frame, whose two
buckets and one empty bucket sum to its two records. -/
theorem C7_witness :
    ((create_time_series [recJanB, recMarA]).map Prod.snd).sum
      = ([recJanB, recMarA] : List PermitRecord).length :=
  (C7_monthly_sum [recJanB, recMarA] (by decide)).1

/-- Claim **C10** witness: the all-null-cost frame sums to `0`. -/
theorem C10_witness :
    generate_summary_stats [recJanB, recMarA] =
      .ok ⟨2, 0, none, none, "a", (20240115, 20240310)⟩ ∧
    (⟨2, 0, none, none, "a", (20240115, 20240310)⟩ :
        SummaryStats).total_value =
      seriesSum ([recJanB, recMarA].map (·.estProjectCost)) ∧
    seriesSum ([recJanB, recMarA].map (·.estProjectCost)) = 0 :=
  ⟨by rfl, C10_total_value_sum.2.2 _ _ (by rfl),
   C10_total_value_sum.2.1 _ (by decide)⟩

/-- The non-null costs of a record group, counted two ways. -/
theorem length_filterMap_cost (l : List PermitRecord) :
    ((l.map (·.estProjectCost)).filterMap id).length
      = (l.filter (fun r => r.estProjectCost.isSome)).length := by
  induction l with
  | nil => rfl
  | cons r t ih =>
    cases hc : r.estProjectCost <;>
      simpa [List.filterMap_cons, List.filter_cons, hc] using ih

/-- Membership in the first-encounter dedup with an explicit seen set. -/
theorem mem_dedupFirstAux {l : List String} :
    ∀ {seen : List String} {v : String},
      v ∈ dedupFirstAux seen l ↔ v ∈ l ∧ v ∉ seen := by
  induction l with
  | nil => intro seen v; simp [dedupFirstAux]
  | cons x t ih =>
    intro seen v
    by_cases hx : x ∈ seen
    · rw [dedupFirstAux, if_pos hx, ih]
      constructor
      · rintro ⟨hvt, hvs⟩
        exact ⟨List.mem_cons_of_mem _ hvt, hvs⟩
      · rintro ⟨hv, hvs⟩
        rcases List.mem_cons.mp hv with rfl | hvt
        · exact absurd hx hvs
        · exact ⟨hvt, hvs⟩
    · rw [dedupFirstAux, if_neg hx]
      constructor
      · intro hv
        rcases List.mem_cons.mp hv with rfl | hvt
        · exact ⟨List.mem_cons_self _ _, hx⟩
        · obtain ⟨h1, h2⟩ := ih.mp hvt
          exact ⟨List.mem_cons_of_mem _ h1,
            fun hs => h2 (List.mem_cons_of_mem _ hs)⟩
      · rintro ⟨hv, hvs⟩
        rcases List.mem_cons.mp hv with rfl | hvt
        · exact List.mem_cons_self _ _
        · by_cases hvx : v = x
          · subst hvx
            exact List.mem_cons_self _ _
          · refine List.mem_cons_of_mem _ (ih.mpr ⟨hvt, ?_⟩)
            intro hs
            rcases List.mem_cons.mp hs with h | h
            · exact hvx h
            · exact hvs h

/-- Shows `dedupFirst` has the same members as the column. -/
theorem mem_dedupFirst {l : List String} {v : String} :
    v ∈ dedupFirst l ↔ v ∈ l := by
  rw [dedupFirst, mem_dedupFirstAux]
  simp

/-- First-encounter dedup of a nonempty column is nonempty. -/
theorem dedupFirst_ne_nil {l : List String} (h : l ≠ []) :
    dedupFirst l ≠ [] := by
  cases l with
  | nil => exact absurd rfl h
  | cons x t => simp [dedupFirst, dedupFirstAux]

/-- The left fold of `max` stays inside the seeded list. -/
theorem foldl_max_mem {α : Type} [LinearOrder α] (l : List α) (a : α) :
    l.foldl max a ∈ a :: l := by
  induction l generalizing a with
  | nil => exact List.mem_cons_self _ _
  | cons b t ih =>
    rw [List.foldl_cons]
    rcases List.mem_cons.mp (ih (max a b)) with heq | hmem
    · rw [heq]
      rcases max_choice a b with h1 | h1 <;> rw [h1]
      · exact List.mem_cons_self _ _
      · exact List.mem_cons_of_mem _ (List.mem_cons_self _ _)
    · exact List.mem_cons_of_mem _ (List.mem_cons_of_mem _ hmem)

/-- A `max?` value is a member of the list. -/
theorem max?_mem_of_eq_some {α : Type} [LinearOrder α] {l : List α}
    {b : α} (h : l.max? = some b) : b ∈ l := by
  cases l with
  | nil => cases h
  | cons x xs =>
    simp only [List.max?_cons', Option.some.injEq] at h
    subst h
    exact foldl_max_mem xs x

/-- Code-point comparison of character lists is reflexive. -/
theorem charListLe_refl (l : List Char) : charListLe l l = true := by
  induction l with
  | nil => rfl
  | cons a t ih => simp [charListLe, ih]

/-- Code-point comparison of character lists is total. -/
theorem charListLe_total (as bs : List Char) :
    charListLe as bs = true ∨ charListLe bs as = true := by
  induction as generalizing bs with
  | nil => exact Or.inl rfl
  | cons a as ih =>
    cases bs with
    | nil => exact Or.inr rfl
    | cons b bs2 =>
      by_cases hab : a = b
      · subst hab
        rcases ih bs2 with h | h
        · exact Or.inl (by simp [charListLe, h])
        · exact Or.inr (by simp [charListLe, h])
      · rcases lt_or_gt_of_ne hab with hlt | hgt
        · exact Or.inl (by simp [charListLe, if_neg hab, hlt])
        · exact Or.inr (by simp [charListLe, if_neg (Ne.symm hab), hgt])

/-- Code-point comparison of character lists is transitive. -/
theorem charListLe_trans : ∀ {as bs cs : List Char},
    charListLe as bs = true → charListLe bs cs = true →
      charListLe as cs = true := by
  intro as
  induction as with
  | nil => intro bs cs _ _; rfl
  | cons a as ih =>
    intro bs cs h1 h2
    cases bs with
    | nil => simp [charListLe] at h1
    | cons b bs2 =>
      cases cs with
      | nil => simp [charListLe] at h2
      | cons c cs2 =>
        by_cases hab : a = b <;> by_cases hbc : b = c
        · subst hab; subst hbc
          rw [charListLe, if_pos rfl] at h1 h2 ⊢
          exact ih h1 h2
        · subst hab
          rw [charListLe, if_neg hbc] at h2
          have hlt : a < c := of_decide_eq_true h2
          rw [charListLe, if_neg (ne_of_lt hlt)]
          exact decide_eq_true hlt
        · subst hbc
          rw [charListLe, if_neg hab] at h1
          have hlt : a < b := of_decide_eq_true h1
          rw [charListLe, if_neg (ne_of_lt hlt)]
          exact decide_eq_true hlt
        · rw [charListLe, if_neg hab] at h1
          rw [charListLe, if_neg hbc] at h2
          have hlt : a < c :=
            lt_trans (of_decide_eq_true h1) (of_decide_eq_true h2)
          rw [charListLe, if_neg (ne_of_lt hlt)]
          exact decide_eq_true hlt

/-- Code-point string comparison is reflexive. -/
theorem strLe_refl (s : String) : strLe s s = true :=
  charListLe_refl _

instance : IsTotal String (fun a b => strLe a b = true) :=
  ⟨fun a b => charListLe_total a.toList b.toList⟩

instance : IsTrans String (fun a b => strLe a b = true) :=
  ⟨fun _ _ _ h1 h2 => charListLe_trans h1 h2⟩

/-- A nonempty column has a nonempty mode list. -/
theorem seriesMode_ne_nil {l : List String} (h : l ≠ []) :
    seriesMode l ≠ [] := by
  have hds : dedupFirst l ≠ [] := dedupFirst_ne_nil h
  rw [seriesMode]
  cases hml : ((dedupFirst l).map (fun v => l.countP (· == v))).max? with
  | none =>
    rw [List.max?_eq_none_iff, List.map_eq_nil_iff] at hml
    exact absurd hml hds
  | some m =>
    obtain ⟨v, hv, hcv⟩ := List.mem_map.mp (max?_mem_of_eq_some hml)
    have hvf : v ∈ (dedupFirst l).filter
        (fun v => l.countP (· == v) == m) :=
      List.mem_filter.mpr ⟨hv, by simp [hcv]⟩
    exact List.ne_nil_of_mem
      ((List.mem_insertionSort _).mpr hvf)

/-- What the head of a nonempty mode list satisfies: it occurs in the
column, attains the maximal occurrence count, and precedes every tied
value in code-point order (pandas `mode()` sorts the tied values). -/
theorem seriesMode_spec {l : List String} {t : String} {ts : List String}
    (h : seriesMode l = t :: ts) :
    t ∈ l ∧
    (∀ v, l.countP (· == v) ≤ l.countP (· == t)) ∧
    (∀ v, v ∈ l → l.countP (· == v) = l.countP (· == t) →
      strLe t v = true) := by
  rw [seriesMode] at h
  cases hml : ((dedupFirst l).map (fun v => l.countP (· == v))).max? with
  | none => rw [hml] at h; cases h
  | some m =>
    rw [hml] at h
    simp only [] at h
    have hmem_t : t ∈ (dedupFirst l).filter
        (fun v => l.countP (· == v) == m) := by
      rw [← List.mem_insertionSort (fun a b => strLe a b = true), h]
      exact List.mem_cons_self _ _
    obtain ⟨htds, htm⟩ := List.mem_filter.mp hmem_t
    have htm' : l.countP (· == t) = m := by simpa using htm
    have hbound : ∀ v, l.countP (· == v) ≤ l.countP (· == t) := by
      intro v
      by_cases hv : v ∈ l
      · have : l.countP (· == v)
            ∈ (dedupFirst l).map (fun v => l.countP (· == v)) :=
          List.mem_map.mpr ⟨v, mem_dedupFirst.mpr hv, rfl⟩
        rw [htm']
        exact le_max?_of_mem hml this
      · have : l.countP (· == v) = 0 :=
          List.countP_eq_zero.mpr fun a ha hav => hv (by
            rw [← of_decide_eq_true hav]
            simpa using ha)
        simp [this]
    refine ⟨mem_dedupFirst.mp htds, hbound, ?_⟩
    intro v hv htie
    have hvf : v ∈ (dedupFirst l).filter
        (fun v => l.countP (· == v) == m) :=
      List.mem_filter.mpr
        ⟨mem_dedupFirst.mpr hv, by simp [htie, htm']⟩
    have hvs : v ∈ t :: ts := by
      rw [← h]
      exact (List.mem_insertionSort _).mpr hvf
    have hsorted : List.Sorted (fun a b => strLe a b = true) (t :: ts) := by
      rw [← h]
      exact List.sorted_insertionSort _ _
    rcases List.mem_cons.mp hvs with rfl | hvts
    · exact strLe_refl v
    · exact (List.sorted_cons.mp hsorted).1 v hvts

/-- Claim **C2** (corrected): at a concrete input whose single category `x` has
two rows, both with null cost, the cost-statistics row carries
`count = 0`, not the row tally 2 — pandas `agg('count')` counts non-null
values, not rows. -/
theorem C2_counterexample :
    (create_permit_type_analysis dfNullX).2
      = [⟨"x", none, none, 0⟩] ∧
    (dfNullX.filter (fun r => r.permitTypeMapped == "x")).length = 2 := by
  decide

/-- Claim **C2** (amended). For every category of the clean set, the
cost-statistics output contains the row whose mean and median are
computed over the group's non-null costs and whose `count` is the number
of NON-null costs in the group (count of non-null, not the row tally). -/
theorem C2_cost_stats_count_nonnull (df : List PermitRecord) (c : String)
    (hc : c ∈ dedupFirst (df.map (·.permitTypeMapped))) :
    ((⟨c, seriesMean ((groupCosts df c).filterMap id),
        seriesMedian ((groupCosts df c).filterMap id),
        ((groupCosts df c).filterMap id).length⟩ : CatStats)
      ∈ (create_permit_type_analysis df).2) ∧
    ((groupCosts df c).filterMap id).length
      = ((df.filter (fun r => r.permitTypeMapped == c)).filter
          (fun r => r.estProjectCost.isSome)).length := by
  constructor
  · have hmem : (⟨c, seriesMean ((groupCosts df c).filterMap id),
        seriesMedian ((groupCosts df c).filterMap id),
        ((groupCosts df c).filterMap id).length⟩ : CatStats)
        ∈ cost_by_type_rows df :=
      List.mem_map.mpr ⟨c, hc, rfl⟩
    exact ((List.perm_insertionSort _ _).mem_iff).mpr hmem
  · exact length_filterMap_cost _

/-- Claim **C2** witness: the amended theorem at a group with one non-null and
one null cost — the emitted `count` is 1. -/
theorem C2_witness :
    (("x" : String) ∈ dedupFirst (dfMixed.map (·.permitTypeMapped))) ∧
    ((⟨"x", seriesMean ((groupCosts dfMixed "x").filterMap id),
        seriesMedian ((groupCosts dfMixed "x").filterMap id),
        ((groupCosts dfMixed "x").filterMap id).length⟩ : CatStats)
      ∈ (create_permit_type_analysis dfMixed).2) ∧
    ((groupCosts dfMixed "x").filterMap id).length = 1 :=
  ⟨by decide,
   (C2_cost_stats_count_nonnull dfMixed "x" (by decide)).1,
   by decide⟩

/-- Claim **C6** (corrected): at a concrete nonempty clean set whose costs are
all null, `generate_summary_stats` succeeds — the avg/median become NaN
(`none`) silently instead of raising — contradicting the claim that the
all-null-cost case raises an `EmptyDatasetError`. -/
theorem C6_counterexample :
    generate_summary_stats [recJanB, recMarA] =
      .ok ⟨2, 0, none, none, "a", (20240115, 20240310)⟩ ∧
    [recJanB, recMarA].countP (fun r => r.estProjectCost.isSome) = 0 :=
  ⟨by rfl, by decide⟩

/-- Claim **C6** (amended). On an EMPTY clean set the summary computation does
raise (an IndexError from `mode().iloc[0]`, not a distinct
`EmptyDatasetError`); but on a nonempty clean set whose costs are all
null it succeeds, with `avgValue`/`medianValue` silently NaN (`none`),
`totalValue = 0`, and `totalPermits` still the row count. -/
theorem C6_empty_vs_allnull :
    (generate_summary_stats [] =
      .error "IndexError: mode of an empty series has no element 0") ∧
    (∀ df : List PermitRecord, df ≠ [] →
      (∀ r ∈ df, r.appliedDate.isSome = true) →
      (∀ r ∈ df, r.estProjectCost = none) →
      ∃ s, generate_summary_stats df = .ok s ∧
        s.avg_value = none ∧ s.median_value = none ∧
        s.total_value = 0 ∧ s.total_permits = df.length) := by
  refine ⟨rfl, ?_⟩
  intro df hne hdates hcosts
  have htypes : df.map (·.permitTypeMapped) ≠ [] := by
    cases df with
    | nil => exact absurd rfl hne
    | cons a t => simp
  have hmode := seriesMode_ne_nil htypes
  obtain ⟨r0, hr0⟩ : ∃ r, r ∈ df := by
    cases df with
    | nil => exact absurd rfl hne
    | cons a t => exact ⟨a, List.mem_cons_self _ _⟩
  obtain ⟨d0, hd0⟩ := Option.isSome_iff_exists.mp (hdates r0 hr0)
  have hdm : dateKey d0 ∈ (df.filterMap (·.appliedDate)).map dateKey :=
    List.mem_map.mpr ⟨d0, List.mem_filterMap.mpr ⟨r0, hr0, hd0⟩, rfl⟩
  obtain ⟨dmin, hdmin⟩ : ∃ v, dateMinKey df = some v := by
    rw [dateMinKey]
    cases hml : (df.filterMap (·.appliedDate)).map dateKey with
    | nil => rw [hml] at hdm; cases hdm
    | cons x xs => exact ⟨xs.foldl min x, List.min?_cons'⟩
  obtain ⟨dmax, hdmax⟩ : ∃ v, dateMaxKey df = some v := by
    rw [dateMaxKey]
    cases hml : (df.filterMap (·.appliedDate)).map dateKey with
    | nil => rw [hml] at hdm; cases hdm
    | cons x xs => exact ⟨xs.foldl max x, List.max?_cons'⟩
  have hallnone : ∀ x ∈ df.map (·.estProjectCost), x = none := by
    intro x hx
    obtain ⟨r, hr, rfl⟩ := List.mem_map.mp hx
    exact hcosts r hr
  have hnil : (df.map (·.estProjectCost)).filterMap id = [] :=
    filterMap_id_nil_of_all_none hallnone
  rcases hm : seriesMode (df.map (·.permitTypeMapped)) with _ | ⟨t, ts⟩
  · exact absurd hm hmode
  refine ⟨⟨df.length, seriesSum (df.map (·.estProjectCost)),
    seriesMean ((df.map (·.estProjectCost)).filterMap id),
    seriesMedian ((df.map (·.estProjectCost)).filterMap id),
    t, (dmin, dmax)⟩, ?_, ?_, ?_, ?_, rfl⟩
  · rw [generate_summary_stats, hm, hdmin, hdmax]
  · rw [hnil]
    rfl
  · rw [hnil]
    rfl
  · exact seriesSum_zero_of_all_none hallnone

/-- Claim **C6** witness: the amended theorem's nonempty all-null branch at the
two-record frame. -/
theorem C6_witness :
    ∃ s, generate_summary_stats [recJanB, recMarA] = .ok s ∧
      s.avg_value = none ∧ s.median_value = none ∧
      s.total_value = 0 ∧
      s.total_permits = ([recJanB, recMarA] : List PermitRecord).length :=
  C6_empty_vs_allnull.2 [recJanB, recMarA] (by decide) (by decide)
    (by decide)

/-- Claim **C8** (corrected): at a concrete clean set whose two categories `b`
(encountered first) and `a` are tied, `mostCommonType` is `a` — the
lexicographically smallest tied value, not the first-encountered one. -/
theorem C8_counterexample :
    generate_summary_stats [recJanB, recMarA] =
      .ok ⟨2, 0, none, none, "a", (20240115, 20240310)⟩ ∧
    dedupFirst ([recJanB, recMarA].map (·.permitTypeMapped))
      = ["b", "a"] ∧
    ([recJanB, recMarA].map (·.permitTypeMapped)).countP (· == "b")
      = ([recJanB, recMarA].map (·.permitTypeMapped)).countP
          (· == "a") :=
  ⟨by rfl, by decide, by decide⟩

/-- Claim **C8** (amended). `mostCommonType` is a value of maximal occurrence
count, and among tied values it is the least in code-point
(lexicographic) order — pandas `mode()` returns the tied values sorted
ascending and `iloc[0]` takes the smallest, not the first-encountered. -/
theorem C8_mode_lex_min (df : List PermitRecord) (s : SummaryStats)
    (h : generate_summary_stats df = .ok s) :
    s.most_common_type ∈ df.map (·.permitTypeMapped) ∧
    (∀ v, (df.map (·.permitTypeMapped)).countP (· == v)
      ≤ (df.map (·.permitTypeMapped)).countP
          (· == s.most_common_type)) ∧
    (∀ v, v ∈ df.map (·.permitTypeMapped) →
      (df.map (·.permitTypeMapped)).countP (· == v)
        = (df.map (·.permitTypeMapped)).countP
            (· == s.most_common_type) →
      strLe s.most_common_type v = true) := by
  obtain ⟨_, _, _, _, ts, hm⟩ := summary_ok_fields h
  exact seriesMode_spec hm

/-- Claim **C8** witness: the amended theorem at the tied frame — the reported
type `a` occurs, its count dominates `b`'s, and `a` precedes the tied
`b` in code-point order. -/
theorem C8_witness :
    (("a" : String) ∈ [recJanB, recMarA].map (·.permitTypeMapped)) ∧
    ([recJanB, recMarA].map (·.permitTypeMapped)).countP (· == "b")
      ≤ ([recJanB, recMarA].map (·.permitTypeMapped)).countP
          (· == "a") ∧
    strLe "a" "b" = true :=
  have H := C8_mode_lex_min [recJanB, recMarA]
    ⟨2, 0, none, none, "a", (20240115, 20240310)⟩ (by rfl)
  ⟨H.1, H.2.1 "b", H.2.2 "b" (by decide) (by decide)⟩

end Permits
